import Mathlib

/-!
Verification of the query caching, logging, result-store and metric subsystem
of `purchasing-dashboard.py`.

Conventions of the embedding:

* Python `float` arithmetic is modelled over `ℚ` (exact rational arithmetic);
  every numeric derivation in the source is a chain of `+ - * /` on decimal
  literals and inputs, which `ℚ` reproduces exactly.
* Fallible Python operations are modelled with `Option`.
* SQLite tables are modelled as lists of records in rowid (insertion) order;
  `UPDATE` is in-place (position preserving), `INSERT` appends.
* `hashlib.sha256(...).hexdigest()` is a fixed, deterministic, pure function
  of its input string.  No claim depends on anything else about it, so it is
  carried as an explicit function argument `digest : String → String`
  everywhere it occurs; every theorem quantifies over `digest`, hence holds
  for the actual SHA-256 hex digest in particular.
-/

namespace PurchasingDashboard

/-! ## Python scalar values

The five metric inputs of the Scoring tab (`pieces`, `rating`, `value`,
`owned`, `wanted`) are scalars harvested from JSON API responses: they can be
`None`, a string (possibly empty or non-numeric), or a number. -/

/-- A Python scalar value as it reaches the Scoring tab's coercion block:
`None`, a string, or a number (int/float, modelled in `ℚ`). -/
inductive PyVal where
  | none
  | str (s : String)
  | num (q : ℚ)
deriving DecidableEq

/-- Python truthiness of a `PyVal`: `None`, `""` and `0` are falsy. -/
def truthy : PyVal → Bool
  | .none => false
  | .str s => !s.isEmpty
  | .num q => q != 0

/-- Embedding of the Python idiom `x or 0` (used as `float(pieces or 0)` in
the source, lines 895–899): a falsy value is replaced by the number `0`. -/
def orZero (x : PyVal) : PyVal :=
  if truthy x then x else .num 0

/-- Value of a list of decimal digit characters. -/
def digitsToNat (cs : List Char) : ℕ :=
  cs.foldl (fun a c => 10 * a + (c.toNat - 48)) 0

/-- Embedding of Python `float(s)` on a string `s`, returning `Option.none`
on a parse failure (Python raises `ValueError`).  Decimal literals with an
optional sign and optional fractional part are parsed; Python additionally
accepts exponent/`inf`/`nan` forms and surrounding whitespace, which no claim
exercises — those strings conservatively fail here exactly like any other
non-numeric string. -/
def parseDec (s : String) : Option ℚ :=
  let go : List Char → Option ℚ := fun cs =>
    let intPart := cs.takeWhile (fun c => c != '.')
    let rest := cs.dropWhile (fun c => c != '.')
    match rest with
    | [] =>
        if intPart.all Char.isDigit && !intPart.isEmpty then
          some (digitsToNat intPart)
        else
          Option.none
    | _ :: frac =>
        if intPart.all Char.isDigit && frac.all Char.isDigit &&
            !(intPart.isEmpty && frac.isEmpty) then
          some ((digitsToNat intPart : ℚ) + (digitsToNat frac : ℚ) / (10 : ℚ) ^ frac.length)
        else
          Option.none
  match s.toList with
  | '-' :: cs => (go cs).map (fun q => -q)
  | '+' :: cs => go cs
  | cs => go cs

/-- Embedding of Python `float(x)`: numbers pass through, strings are parsed,
`None` raises (`Option.none`). -/
def pyFloat : PyVal → Option ℚ
  | .none => Option.none
  | .str s => parseDec s
  | .num q => some q

/-! ## Scoring tab: input coercion (source lines 894–901)

```python
try:
    p = float(pieces or 0)
    r = float(rating or 0)
    v = float(value or 0)
    o = float(owned or 0)
    w = float(wanted or 0)
except Exception:
    p, r, v, o, w = 0.0, 0.0, 0.0, 0.0, 0.0
```

All five coercions sit in ONE `try` block: if any of them raises, the
`except` arm zeroes all five names. -/

/-- Embedding of the joint coercion block: the tuple `(p, r, v, o, w)` after
lines 894–901 of the source. -/
def coerceFive (pieces rating value owned wanted : PyVal) : ℚ × ℚ × ℚ × ℚ × ℚ :=
  match pyFloat (orZero pieces), pyFloat (orZero rating), pyFloat (orZero value),
        pyFloat (orZero owned), pyFloat (orZero wanted) with
  | some p, some r, some v, some o, some w => (p, r, v, o, w)
  | _, _, _, _, _ => (0, 0, 0, 0, 0)

/-! ## Scoring tab: policy constants and metric derivation (lines 843–939) -/

/-- Brickset total user base used for normalisation ratios (line 844). -/
def BRICKSET_TOTAL_USERS : ℚ := 374621

/-- Demand smoothing constant (line 847). -/
def DEMAND_SMOOTHING_K : ℚ := 50.0

/-- Wanted share mapped to maximal baseline demand (line 848). -/
def WANTED_SHARE_FOR_10 : ℚ := 0.02

/-- Lower cap of the pressure factor (line 849). -/
def PRESSURE_MIN : ℚ := 0.5

/-- Upper cap of the pressure factor (line 850). -/
def PRESSURE_MAX : ℚ := 1.5

/-- Embedding of `_clip` (lines 852–857): `max(lo, min(hi, x))`.  The
`try: x = float(x)` of the source never fails on the numeric arguments it
receives in this file, so the `except: return lo` arm is unreachable. -/
def _clip (x lo hi : ℚ) : ℚ :=
  max lo (min hi x)

/-- The row of derived metrics assembled by the Scoring tab (the numeric
fields of `row_payload`, lines 920–939). -/
structure MetricsRow where
  pieces : ℚ
  rating : ℚ
  users_owned : ℚ
  users_wanted : ℚ
  owned_ratio : ℚ
  wanted_ratio : ℚ
  wanted_owned_ratio : ℚ
  demand_pressure_smoothed : ℚ
  demand_index : ℚ
  demand_score_0_10 : ℚ
  current_value : ℚ
  score : ℚ
deriving DecidableEq

/-- Embedding of the Scoring tab's per-item metric computation (source lines
894–939): coercion of the five raw inputs followed by the ratio, demand and
score derivations.  The three conditionals mirror the Python truthiness
guards `if BRICKSET_TOTAL_USERS`, `if o`, `if (o + DEMAND_SMOOTHING_K)`. -/
def computeMetrics (pieces rating value owned wanted : PyVal) : MetricsRow :=
  let c := coerceFive pieces rating value owned wanted
  let p := c.1
  let r := c.2.1
  let v := c.2.2.1
  let o := c.2.2.2.1
  let w := c.2.2.2.2
  let owned_ratio := if BRICKSET_TOTAL_USERS ≠ 0 then o / BRICKSET_TOTAL_USERS else 0.0
  let wanted_ratio := if BRICKSET_TOTAL_USERS ≠ 0 then w / BRICKSET_TOTAL_USERS else 0.0
  let wanted_owned_ratio := if o ≠ 0 then w / o else 0.0
  let demand_pressure_smoothed :=
    if o + DEMAND_SMOOTHING_K ≠ 0 then (w + DEMAND_SMOOTHING_K) / (o + DEMAND_SMOOTHING_K)
    else 0.0
  let demand_index := wanted_ratio * demand_pressure_smoothed
  let base := _clip (wanted_ratio / WANTED_SHARE_FOR_10) 0.0 1.0
  let pressure_factor := _clip demand_pressure_smoothed PRESSURE_MIN PRESSURE_MAX
  let demand_score_0_10 := _clip (10.0 * base * pressure_factor) 0.0 10.0
  let score_val := 0.4 * (p / 1000) + 0.4 * r + 0.2 * (v / 100)
  ⟨p, r, o, w, owned_ratio, wanted_ratio, wanted_owned_ratio,
   demand_pressure_smoothed, demand_index, demand_score_0_10, v, score_val⟩

/-! ## JSON parameter values and deterministic parameter hashing -/

/-- JSON-representable request-parameter / payload scalar values. -/
inductive JVal where
  | null
  | bool (b : Bool)
  | int (n : ℤ)
  | str (s : String)
deriving DecidableEq

/-- A JSON object: key/value pairs in insertion order (a Python `dict`
preserves insertion order; its keys are unique). -/
abbrev JObj := List (String × JVal)

/-- JSON string quoting as `json.dumps` renders it (quote and backslash
escaped, other characters passed through). -/
def jsonQuote (s : String) : String :=
  "\"" ++ String.mk (s.toList.foldr (fun c acc =>
    if c = '"' then '\\' :: '"' :: acc
    else if c = '\\' then '\\' :: '\\' :: acc
    else c :: acc) []) ++ "\""

/-- Serialisation of a scalar JSON value as `json.dumps` renders it. -/
def jsonValDump : JVal → String
  | .null => "null"
  | .bool true => "true"
  | .bool false => "false"
  | .int n => toString n
  | .str s => jsonQuote s

/-- Key order used by `json.dumps(..., sort_keys=True)`: lexicographic
comparison of the key strings. -/
def keyLE (a b : String × JVal) : Prop := a.1 ≤ b.1

instance : DecidableRel keyLE := fun a b => inferInstanceAs (Decidable (a.1 ≤ b.1))

/-- Strict key order (proof device for uniqueness of the sorted order). -/
def keyLT (a b : String × JVal) : Prop := a.1 < b.1

instance : IsTotal (String × JVal) keyLE := ⟨fun a b => le_total a.1 b.1⟩

instance : IsTrans (String × JVal) keyLE := ⟨fun _ _ _ h1 h2 => le_trans h1 h2⟩

instance : IsAntisymm (String × JVal) keyLT := ⟨fun _ _ h1 h2 => absurd h2 (lt_asymm h1)⟩

/-- Stable sort of the parameter pairs by key: the canonical ordering that
`json.dumps(params, sort_keys=True)` serialises. -/
def sortParams (l : JObj) : JObj := l.insertionSort keyLE

/-- Embedding of `json.dumps(params, sort_keys=True, separators=(",", ":"))`
for a flat JSON object. -/
def jsonDumpsSorted (params : JObj) : String :=
  "\x7b" ++ String.intercalate ","
    ((sortParams params).map (fun kv => jsonQuote kv.1 ++ ":" ++ jsonValDump kv.2)) ++ "\x7d"

/-- Embedding of `_hash_params` (source lines 78–83).  A falsy `params`
(`None` or the empty dict) short-circuits to the sentinel `"no-params"`;
otherwise the canonical sorted serialisation is digested and truncated to 16
hex characters.  `digest` stands for `hashlib.sha256(s.encode()).hexdigest()`,
a fixed pure function of the serialised string; every theorem below holds for
all `digest`, hence for SHA-256 in particular. -/
def _hash_params (digest : String → String) : Option JObj → String
  | Option.none => "no-params"
  | some l => if l.isEmpty then "no-params" else (digest (jsonDumpsSorted l)).take 16

/-! ## Query Log and Result Store (SQLite tables)

Tables are lists of records in rowid order.  All timestamps are the TEXT
column values `datetime.now(timezone.utc).isoformat(timespec="seconds")`,
compared by SQLite as TEXT, i.e. lexicographically — mirrored by the
`String` order.  The `payload_json` column holds `json.dumps(payload)` and
the reader applies `json.loads`, a round-trip identity on JSON-representable
payloads, so the column is modelled by the payload object itself. -/

/-- One `query_log` row (schema lines 47–55; id = position in the list). -/
structure QLRow where
  ts_utc : String
  source : String
  set_number : String
  params_hash : String
  cache_hit : Bool
  summary : String
deriving DecidableEq

/-- One `results_store` row (schema lines 61–68; id = position). -/
structure RSRow where
  ts_utc : String
  source : String
  set_number : String
  params_hash : String
  payload : JObj
deriving DecidableEq

/-- The persistent database: both tables. -/
structure DB where
  query_log : List QLRow
  results_store : List RSRow
deriving DecidableEq

/-- Embedding of `log_query` (lines 86–108): appends one row with the
current UTC timestamp (`ts_now`), the params-hash, the cache-hit flag as an
integer bool, and the summary defaulted to `""` and truncated to 300
characters. -/
def log_query (digest : String → String) (db : DB) (source set_number : String)
    (params : Option JObj) (cache_hit : Bool) (summary : Option String)
    (ts_now : String) : DB :=
  { db with query_log := db.query_log ++
      [⟨ts_now, source, set_number, _hash_params digest params, cache_hit,
        (summary.getD "").take 300⟩] }

/-- Natural-key match of a `results_store` row against
`(source, set_number, params_hash)` — the `WHERE` clause of the upsert's
`SELECT id` (lines 127–133). -/
def rsMatch (source set_number params_hash : String) (r : RSRow) : Bool :=
  r.source == source && r.set_number == set_number && r.params_hash == params_hash

/-- Embedding of the `SELECT id … fetchone` / `UPDATE … WHERE id` / `INSERT`
upsert of `save_result` (lines 127–153): the FIRST row matching the natural
key is updated in place — `UPDATE` only reassigns `ts_utc` and
`payload_json` and keeps the rowid, hence the position; with no match a
fresh row is appended (autoincrement id). -/
def upsertRS (source set_number params_hash ts_now : String) (payload : JObj) :
    List RSRow → List RSRow
  | [] => [⟨ts_now, source, set_number, params_hash, payload⟩]
  | r :: rest =>
      if rsMatch source set_number params_hash r then
        ⟨ts_now, r.source, r.set_number, r.params_hash, payload⟩ :: rest
      else
        r :: upsertRS source set_number params_hash ts_now payload rest

/-- Embedding of `save_result` (lines 111–165): upsert into `results_store`
keyed by `(source, set_number, _hash_params(params))`, then `log_query` for
the same key so History has something to join against.  `ts_store` and
`ts_log` model the two separate `datetime.now(timezone.utc)` calls. -/
def save_result (digest : String → String) (db : DB) (source set_number : String)
    (params : Option JObj) (payload : JObj) (cache_hit : Bool)
    (summary : Option String) (ts_store ts_log : String) : DB :=
  let key_hash := _hash_params digest params
  let db1 : DB := { db with
    results_store := upsertRS source set_number key_hash ts_store payload db.results_store }
  log_query digest db1 source set_number params cache_hit summary ts_log

/-! ## History Reader (windowed join) -/

/-- One row of the History table: the SELECT list of
`results_last_n_days_df` (lines 180–185) — `q.ts_utc, r.source,
r.set_number, r.params_hash, r.payload_json`. -/
structure HistRec where
  ts_utc : String
  source : String
  set_number : String
  params_hash : String
  payload : JObj
deriving DecidableEq

/-- Natural-key match of a `query_log` row against
`(source, set_number, params_hash)`. -/
def qlKeyMatch (source set_number params_hash : String) (q : QLRow) : Bool :=
  source == q.source && set_number == q.set_number && params_hash == q.params_hash

/-- Join condition of `results_last_n_days_df` for a fixed `results_store`
row: `ON` key equality `AND q.ts_utc >= start_iso` (lines 187–192).  SQLite
compares the TEXT timestamps bytewise-lexicographically, which the
lexicographic order on the character lists mirrors (it agrees with
Mathlib's `String` order by `String.le_iff_toList_le`). -/
def qlMatchInWindow (r : RSRow) (start_iso : String) (q : QLRow) : Bool :=
  qlKeyMatch r.source r.set_number r.params_hash q &&
    decide (start_iso.toList ≤ q.ts_utc.toList)

/-- Natural-key match of a History row. -/
def histMatch (source set_number params_hash : String) (h : HistRec) : Bool :=
  h.source == source && h.set_number == set_number && h.params_hash == params_hash

/-- Concatenation of the lists produced per element (the unordered result
multiset of a relational join, built rowid-major). -/
def concatMap (g : α → List β) : List α → List β
  | [] => []
  | a :: t => g a ++ concatMap g t

/-- History rows contributed by a single `results_store` row: the WHERE
clause `r.source LIKE 'sourcePre%'` (callers pass literal prefixes without
SQL wildcards, so LIKE is a prefix test) and the join with `query_log`. -/
def joinContrib (logs : List QLRow) (sourcePre start_iso : String) (r : RSRow) :
    List HistRec :=
  if sourcePre.toList.isPrefixOf r.source.toList then
    (logs.filter (qlMatchInWindow r start_iso)).map
      (fun q => ⟨q.ts_utc, r.source, r.set_number, r.params_hash, r.payload⟩)
  else []

/-- Newest-first comparison on History rows (`ORDER BY q.ts_utc DESC`). -/
def newestFirst (a b : HistRec) : Prop := b.ts_utc.toList ≤ a.ts_utc.toList

instance : DecidableRel newestFirst :=
  fun a b => inferInstanceAs (Decidable (b.ts_utc.toList ≤ a.ts_utc.toList))

instance : IsTotal HistRec newestFirst := ⟨fun a b => le_total b.ts_utc.toList a.ts_utc.toList⟩

instance : IsTrans HistRec newestFirst := ⟨fun _ _ _ h1 h2 => le_trans h2 h1⟩

/-- Embedding of `results_last_n_days_df` (lines 168–214): the inner join of
`results_store` and `query_log` on the natural key, restricted to
`q.ts_utc >= start_iso` and to sources matching the prefix, ordered
newest-first by the log timestamp.  `start_iso` models the rendered
`now - timedelta(days)`; SQLite's row order for equal timestamps under
`ORDER BY` is unspecified, so any order satisfying the demanded
`ORDER BY q.ts_utc DESC` is a faithful model. -/
def results_last_n_days (db : DB) (sourcePre start_iso : String) : List HistRec :=
  (concatMap (joinContrib db.query_log sourcePre start_iso) db.results_store).insertionSort
    newestFirst

/-- Embedding of `clear_history_today` (lines 217–225): deletes the rows of
both tables whose `substr(ts_utc, 1, 10)` equals `today_str`, where
`today_str` models `date.today().isoformat()` — the date of the
PROCESS-LOCAL clock (`date.today()` is timezone-naive), although the
function's own docstring says "(UTC date)" and every stored timestamp is
taken with `timezone.utc`. -/
def clear_history_today (db : DB) (today_str : String) : DB :=
  ⟨db.query_log.filter (fun q => !(q.ts_utc.take 10 == today_str)),
   db.results_store.filter (fun r => !(r.ts_utc.take 10 == today_str))⟩

/-- A concrete database for the History-join witness: one stored result with
two in-window log entries plus one out-of-window entry for its key, and one
orphan stored result with no log entry at all. -/
def dbW : DB :=
  ⟨[⟨"2026-10-05T09:00:00+00:00", "BL:p", "42-1", "h1", false, ""⟩,
    ⟨"2026-10-11T09:00:00+00:00", "BL:p", "42-1", "h1", true, ""⟩,
    ⟨"2026-10-12T10:30:00+00:00", "BL:p", "42-1", "h1", false, ""⟩],
   [⟨"2026-10-12T10:30:00+00:00", "BL:p", "42-1", "h1", [("v", .int 7)]⟩,
    ⟨"2026-10-12T10:31:00+00:00", "BL:p", "43-1", "h2", [("v", .int 9)]⟩]⟩

/-- A concrete database for the clear-today claim: both tables hold exactly
one record, written at 01:00 UTC on 2026-10-12. -/
def dbC9 : DB :=
  ⟨[⟨"2026-10-12T01:00:00+00:00", "BL:p", "42-1", "h1", false, ""⟩],
   [⟨"2026-10-12T01:00:00+00:00", "BL:p", "42-1", "h1", [("v", .int 7)]⟩]⟩

/-! ## TTL Cache (`st.cache_data` around `_cached_get_json`) -/

/-- BrickLink OAuth1 credential material — the four module-level secrets
(missing ones are already defaulted to `""` by `st.secrets.get(…, "")`). -/
structure OAuthCreds where
  consumer_key : String
  consumer_secret : String
  token : String
  token_secret : String
deriving DecidableEq

/-- Embedding of `_bl_cache_key` (lines 265–272): a 16-hex-character
fingerprint of the four ambient BrickLink credentials. -/
def _bl_cache_key (digest : String → String) (c : OAuthCreds) : String :=
  (digest (String.intercalate "|"
    [c.consumer_key, c.consumer_secret, c.token, c.token_secret])).take 16

/-- The memoisation key `st.cache_data` derives for a `_cached_get_json`
call: the function's arguments, with the `OAuth1` argument hashed by the
constant function `lambda _: "oauth1"` declared in `hash_funcs` (line 278) —
so the oauth object contributes one and the same constant to every key, and
no credential material is part of the key. -/
structure StKey where
  url : String
  params : Option JObj
  oauth_hash : String
  cache_group : String
  cache_key_extra : Option String
deriving DecidableEq

/-- One memoised cache entry: the decoded JSON value and its creation time
in seconds. -/
structure CacheEntry where
  value : JObj
  ts : ℕ
deriving DecidableEq

/-- The in-process memoisation state of `st.cache_data`. -/
abbrev Cache := List (StKey × CacheEntry)

/-- First-match lookup in the cache state. -/
def lookupCache (k : StKey) : Cache → Option CacheEntry
  | [] => Option.none
  | (k', e) :: rest => if k' = k then some e else lookupCache k rest

/-- Store a fresh entry under `k`, replacing any previous entry for `k`. -/
def storeCache (k : StKey) (e : CacheEntry) (c : Cache) : Cache :=
  (k, e) :: c.filter (fun kv => decide (kv.1 ≠ k))

/-- The fixed cache TTL: 24 hours in seconds (`ttl=86400`, line 278). -/
def TTL : ℕ := 86400

/-- Embedding of `_cached_get_json` (lines 278–298) under
`@st.cache_data(ttl=86400, hash_funcs={OAuth1: lambda _: "oauth1"})`.
Arguments: the ambient `BL_*` credential globals `env`, the cache state and
current time, the explicit call arguments, and `fetch_result` — the decoded
response a live `requests.get` would produce now (HTTP is an external
collaborator; note the function caches error payloads the same way as
successes).  Returns (value, whether a live request was issued, new cache
state).  The body's `cache_key` string — the only place the credential
fingerprint `_bl_cache_key()` appears — is bound to a throwaway local
(`_ = cache_key`, line 289) exactly as in the source: a local assignment
does not reach Streamlit's argument-derived memoisation key. -/
def _cached_get_json (digest : String → String) (env : OAuthCreds) (cache : Cache)
    (now : ℕ) (url : String) (params : Option JObj) (oauth : OAuthCreds)
    (cache_group : String) (cache_key_extra : Option String)
    (fetch_result : JObj) : JObj × Bool × Cache :=
  let key_extra := cache_key_extra.getD ""
  let _cache_key : String := cache_group ++ ":" ++ _bl_cache_key digest env ++ ":" ++ url
    ++ ":" ++ (match params with
               | Option.none => "null"
               | some l => jsonDumpsSorted l) ++ ":" ++ key_extra
  let key : StKey := ⟨url, params, "oauth1", cache_group, cache_key_extra⟩
  match lookupCache key cache with
  | some e =>
      if now - e.ts < TTL then (e.value, false, cache)
      else (fetch_result, true, storeCache key ⟨fetch_result, now⟩ cache)
  | Option.none => (fetch_result, true, storeCache key ⟨fetch_result, now⟩ cache)

/-- Concrete credential set A for the cache claims. -/
def credsA : OAuthCreds := ⟨"ckA", "csA", "tA", "tsA"⟩

/-- Concrete credential set B for the cache claims (entirely different). -/
def credsB : OAuthCreds := ⟨"ckB", "csB", "tB", "tsB"⟩

/-! ## Claims about the Metric Engine -/

/-- C1: for every combination of the five metric inputs — `None`, strings
(empty or non-numeric) and numbers alike — the Scoring computation is the
total function `computeMetrics`, producing a complete row of rationals with
no exception; its demand score lies in `[0, 10]`, and a zero owned count
faults neither guarded division: the wanted/owned ratio falls back to `0`
and the smoothed demand pressure is `(w + K) / (0 + K)`. -/
theorem metric_engine_totality (pieces rating value owned wanted : PyVal) :
    0 ≤ (computeMetrics pieces rating value owned wanted).demand_score_0_10 ∧
    (computeMetrics pieces rating value owned wanted).demand_score_0_10 ≤ 10 ∧
    ((coerceFive pieces rating value owned wanted).2.2.2.1 = 0 →
      (computeMetrics pieces rating value owned wanted).wanted_owned_ratio = 0 ∧
      (computeMetrics pieces rating value owned wanted).demand_pressure_smoothed =
        ((coerceFive pieces rating value owned wanted).2.2.2.2 + DEMAND_SMOOTHING_K)
          / DEMAND_SMOOTHING_K) := by
  obtain ⟨x, hx⟩ : ∃ x, (computeMetrics pieces rating value owned wanted).demand_score_0_10
      = _clip x 0.0 10.0 := ⟨_, rfl⟩
  have h0 : (0.0 : ℚ) = 0 := by norm_num
  have h10 : (10.0 : ℚ) = 10 := by norm_num
  refine ⟨?_, ?_, ?_⟩
  · rw [hx, _clip, ← h0]
    exact le_max_left _ _
  · rw [hx, _clip, ← h10]
    exact max_le (by norm_num) (min_le_left _ _)
  · intro h
    have hwor : (computeMetrics pieces rating value owned wanted).wanted_owned_ratio =
        (if (coerceFive pieces rating value owned wanted).2.2.2.1 ≠ 0 then
          (coerceFive pieces rating value owned wanted).2.2.2.2 /
            (coerceFive pieces rating value owned wanted).2.2.2.1 else 0.0) := rfl
    have hdp : (computeMetrics pieces rating value owned wanted).demand_pressure_smoothed =
        (if (coerceFive pieces rating value owned wanted).2.2.2.1 + DEMAND_SMOOTHING_K ≠ 0 then
          ((coerceFive pieces rating value owned wanted).2.2.2.2 + DEMAND_SMOOTHING_K) /
            ((coerceFive pieces rating value owned wanted).2.2.2.1 + DEMAND_SMOOTHING_K)
         else 0.0) := rfl
    rw [hwor, hdp, h]
    constructor
    · rw [if_neg (by norm_num)]
      norm_num
    · rw [if_pos (by norm_num [DEMAND_SMOOTHING_K])]
      norm_num

/-- C1 witness: the spec's own edge scenario `owned = 0, wanted = 5` —
no division fault, wanted/owned ratio `0`, demand pressure `(5+50)/(0+50)`. -/
theorem metric_engine_totality_witness :
    (computeMetrics (.num 100) (.num 4) (.num 10) (.num 0) (.num 5)).wanted_owned_ratio = 0 ∧
    (computeMetrics (.num 100) (.num 4) (.num 10) (.num 0) (.num 5)).demand_pressure_smoothed =
      ((coerceFive (.num 100) (.num 4) (.num 10) (.num 0) (.num 5)).2.2.2.2
        + DEMAND_SMOOTHING_K) / DEMAND_SMOOTHING_K :=
  (metric_engine_totality (.num 100) (.num 4) (.num 10) (.num 0) (.num 5)).2.2 (by decide)

/-- C2: the purchase score is exactly the fixed linear blend
`0.4*(p/1000) + 0.4*r + 0.2*(v/100)` of the three coerced inputs, and on the
spec's example (`pieces = 7541, rating = 4.8, value = 850.0`) it equals
`6.6364` exactly. -/
theorem score_linear_blend :
    (∀ pieces rating value owned wanted : PyVal,
      (computeMetrics pieces rating value owned wanted).score =
        0.4 * ((coerceFive pieces rating value owned wanted).1 / 1000) +
        0.4 * (coerceFive pieces rating value owned wanted).2.1 +
        0.2 * ((coerceFive pieces rating value owned wanted).2.2.1 / 100)) ∧
    (computeMetrics (.num 7541) (.num 4.8) (.num 850.0) (.num 12000) (.num 3000)).score
      = 6.6364 := by
  refine ⟨fun _ _ _ _ _ => rfl, ?_⟩
  have hc : coerceFive (.num 7541) (.num 4.8) (.num 850.0) (.num 12000) (.num 3000)
      = ((7541 : ℚ), (4.8 : ℚ), (850.0 : ℚ), (12000 : ℚ), (3000 : ℚ)) := by
    norm_num [coerceFive, pyFloat, orZero, truthy]
  show 0.4 * ((coerceFive (.num 7541) (.num 4.8) (.num 850.0) (.num 12000) (.num 3000)).1 / 1000)
      + 0.4 * (coerceFive (.num 7541) (.num 4.8) (.num 850.0) (.num 12000) (.num 3000)).2.1
      + 0.2 * ((coerceFive (.num 7541) (.num 4.8) (.num 850.0) (.num 12000) (.num 3000)).2.2.1
        / 100) = 6.6364
  rw [hc]
  norm_num

/-- C4 counterexample: with `pieces = 7541` (cleanly numeric) and the single
non-numeric field `rating = "abc"`, the joint `try/except` zeroes ALL five
coerced values — `pieces` does not keep `7541.0` as the claim's per-field
independence requires. -/
theorem coercion_not_fieldwise_counterexample :
    coerceFive (.num 7541) (.str "abc") (.num 850.0) (.num 12000) (.num 3000)
      = (0, 0, 0, 0, 0) ∧
    (coerceFive (.num 7541) (.str "abc") (.num 850.0) (.num 12000) (.num 3000)).1 ≠ 7541 := by
  decide

/-- C4 amended: the coercion block never raises; missing (`None`) and empty
string inputs coerce to `0.0`; when all five fields coerce successfully each
keeps its own value; but a float-coercion failure in ANY field (a non-numeric
string) sets ALL five coerced values to `0.0` jointly — the five fields share
one `try/except`, so failure handling is not per-field. -/
theorem coercion_joint_fallback :
    (∀ pieces rating value owned wanted : PyVal,
      (pyFloat (orZero pieces) = Option.none ∨ pyFloat (orZero rating) = Option.none ∨
       pyFloat (orZero value) = Option.none ∨ pyFloat (orZero owned) = Option.none ∨
       pyFloat (orZero wanted) = Option.none) →
      coerceFive pieces rating value owned wanted = (0, 0, 0, 0, 0)) ∧
    (∀ pieces rating value owned wanted : PyVal, ∀ p r v o w : ℚ,
      pyFloat (orZero pieces) = some p → pyFloat (orZero rating) = some r →
      pyFloat (orZero value) = some v → pyFloat (orZero owned) = some o →
      pyFloat (orZero wanted) = some w →
      coerceFive pieces rating value owned wanted = (p, r, v, o, w)) ∧
    pyFloat (orZero .none) = some 0 ∧ pyFloat (orZero (.str "")) = some 0 := by
  refine ⟨?_, ?_, rfl, rfl⟩
  · intro a b c d e h
    cases h1 : pyFloat (orZero a) <;> cases h2 : pyFloat (orZero b) <;>
      cases h3 : pyFloat (orZero c) <;> cases h4 : pyFloat (orZero d) <;>
      cases h5 : pyFloat (orZero e) <;> simp_all [coerceFive]
  · intro a b c d e p r v o w h1 h2 h3 h4 h5
    simp [coerceFive, h1, h2, h3, h4, h5]

/-- C4 amended witness: one failing field zeroes everything; five clean
fields each keep their own value. -/
theorem coercion_joint_fallback_witness :
    coerceFive (.str "x") (.num 1) (.num 2) (.num 3) (.num 4) = (0, 0, 0, 0, 0) ∧
    coerceFive (.num 1) (.num 2) (.num 3) (.num 4) (.num 5) = (1, 2, 3, 4, 5) :=
  ⟨coercion_joint_fallback.1 _ _ _ _ _ (Or.inl (by decide)),
   coercion_joint_fallback.2.1 _ _ _ _ _ 1 2 3 4 5
     (by decide) (by decide) (by decide) (by decide) (by decide)⟩

/-! ## Claims about parameter hashing -/

/-- A key-sorted parameter list with pairwise-distinct keys is also sorted
for the strict key order. -/
theorem sorted_keyLT_of_nodup {l : JObj} (hs : l.Sorted keyLE)
    (hnd : (l.map Prod.fst).Nodup) : l.Sorted keyLT := by
  have hne : l.Pairwise (fun a b : String × JVal => a.1 ≠ b.1) := by
    rw [List.Nodup, List.pairwise_map] at hnd
    exact hnd
  exact (hs.and hne).imp (fun h => lt_of_le_of_ne h.1 h.2)

/-- The canonical key-sort of a parameter dict depends only on its set of
key/value pairs, not on insertion order. -/
theorem sortParams_eq_of_perm {p1 p2 : JObj} (hnd : (p1.map Prod.fst).Nodup)
    (hperm : p1.Perm p2) : sortParams p1 = sortParams p2 := by
  have hperm' : (sortParams p1).Perm (sortParams p2) :=
    ((List.perm_insertionSort keyLE p1).trans hperm).trans
      (List.perm_insertionSort keyLE p2).symm
  have hnd1 : ((sortParams p1).map Prod.fst).Nodup :=
    ((List.perm_insertionSort keyLE p1).map Prod.fst).nodup_iff.mpr hnd
  have hnd2 : ((sortParams p2).map Prod.fst).Nodup :=
    (hperm'.map Prod.fst).nodup_iff.mp hnd1
  exact List.eq_of_perm_of_sorted hperm'
    (sorted_keyLT_of_nodup (List.sorted_insertionSort keyLE p1) hnd1)
    (sorted_keyLT_of_nodup (List.sorted_insertionSort keyLE p2) hnd2)

/-- C3: parameter hashing is insertion-order independent — two parameter
dicts holding identical key/value pairs (unique keys, in any order) receive
the identical params-hash, for every digest function, in particular for the
SHA-256 hex digest. -/
theorem hash_params_order_independent (digest : String → String) (p1 p2 : JObj)
    (hnd : (p1.map Prod.fst).Nodup) (hperm : p1.Perm p2) :
    _hash_params digest (some p1) = _hash_params digest (some p2) := by
  have hsort : sortParams p1 = sortParams p2 := sortParams_eq_of_perm hnd hperm
  have hisEmpty : p1.isEmpty = p2.isEmpty := by
    have := hperm.length_eq
    cases p1 <;> cases p2 <;> simp_all
  simp only [_hash_params, jsonDumpsSorted, hsort, hisEmpty]

/-- C3 witness: a concrete two-key dict in its two insertion orders hashes
identically (digest instantiated with the identity function). -/
theorem hash_params_order_independent_witness :
    _hash_params (fun s => s)
      (some [("guide_type", .str "stock"), ("new_or_used", .str "N")]) =
    _hash_params (fun s => s)
      (some [("new_or_used", .str "N"), ("guide_type", .str "stock")]) :=
  hash_params_order_independent (fun s => s) _ _ (by decide)
    (List.Perm.swap _ _ _)

/-- C10: a `None` or empty parameter mapping short-circuits to the fixed
sentinel `"no-params"` instead of a digest, whatever the digest function —
so every query issued without parameters carries the same params-hash,
across all sources and items. -/
theorem hash_params_no_params_sentinel (digest : String → String) :
    _hash_params digest Option.none = "no-params" ∧
    _hash_params digest (some []) = "no-params" :=
  ⟨rfl, rfl⟩

/-! ## Claims about the Result Store upsert -/

/-- Updating the first key-matching row (or appending when none matches)
leaves exactly one key-matching row — the freshly written one — provided the
store held at most one row for that key. -/
theorem filter_upsertRS (source set_number params_hash ts_now : String)
    (payload : JObj) (l : List RSRow)
    (h : (l.filter (rsMatch source set_number params_hash)).length ≤ 1) :
    (upsertRS source set_number params_hash ts_now payload l).filter
        (rsMatch source set_number params_hash)
      = [⟨ts_now, source, set_number, params_hash, payload⟩] := by
  induction l with
  | nil => simp [upsertRS, List.filter, rsMatch]
  | cons r rest ih =>
      simp only [upsertRS]
      cases hm : rsMatch source set_number params_hash r with
      | true =>
          obtain ⟨h1, h2, h3⟩ : r.source = source ∧ r.set_number = set_number ∧
              r.params_hash = params_hash := by
            simpa [rsMatch, beq_iff_eq, and_assoc] using hm
          have hnil : rest.filter (rsMatch source set_number params_hash) = [] := by
            rw [List.filter_cons_of_pos hm] at h
            simp only [List.length_cons] at h
            exact List.length_eq_zero.mp (by omega)
          simp [List.filter_cons, rsMatch, h1, h2, h3, hnil]
      | false =>
          have h' : (rest.filter (rsMatch source set_number params_hash)).length ≤ 1 := by
            simpa [List.filter_cons, hm] using h
          simp [List.filter_cons, hm, ih h']

/-- When some row already matches the key, the upsert does not grow the
store: it is an in-place `UPDATE`, not an `INSERT`. -/
theorem length_upsertRS_of_mem (source set_number params_hash ts_now : String)
    (payload : JObj) (l : List RSRow)
    (h : ∃ r ∈ l, rsMatch source set_number params_hash r = true) :
    (upsertRS source set_number params_hash ts_now payload l).length = l.length := by
  induction l with
  | nil => simp at h
  | cons r rest ih =>
      simp only [upsertRS]
      cases hm : rsMatch source set_number params_hash r with
      | true => simp
      | false =>
          have h' : ∃ x ∈ rest, rsMatch source set_number params_hash x = true := by
            rcases h with ⟨x, hx, hpx⟩
            rcases List.mem_cons.mp hx with rfl | hx'
            · rw [hm] at hpx
              exact absurd hpx (by simp)
            · exact ⟨x, hx', hpx⟩
          simp [ih h']

/-- C6: the Result Store keeps at most one record per natural key
`(source, set_number, params_hash)`: a `save_result` for an existing key
overwrites timestamp and payload in place rather than inserting (the second
call does not grow the store), and two successive upserts with the same key
leave exactly one record for that key, carrying the later timestamp and the
later payload — provided the store started with at most one record for the
key. -/
theorem result_store_upsert_in_place (digest : String → String) (db : DB)
    (source set_number : String) (params : Option JObj)
    (payload1 payload2 : JObj) (ch1 ch2 : Bool) (s1 s2 : Option String)
    (ts1s ts1l ts2s ts2l : String)
    (h : (db.results_store.filter
        (rsMatch source set_number (_hash_params digest params))).length ≤ 1) :
    ((save_result digest
        (save_result digest db source set_number params payload1 ch1 s1 ts1s ts1l)
        source set_number params payload2 ch2 s2 ts2s ts2l).results_store.filter
          (rsMatch source set_number (_hash_params digest params))
      = [⟨ts2s, source, set_number, _hash_params digest params, payload2⟩]) ∧
    (save_result digest
        (save_result digest db source set_number params payload1 ch1 s1 ts1s ts1l)
        source set_number params payload2 ch2 s2 ts2s ts2l).results_store.length
      = (save_result digest db source set_number params payload1 ch1 s1
          ts1s ts1l).results_store.length := by
  have e1 : ∀ (d : DB) (payload : JObj) (ch : Bool) (s : Option String) (tss tsl : String),
      (save_result digest d source set_number params payload ch s tss tsl).results_store
        = upsertRS source set_number (_hash_params digest params) tss payload
            d.results_store := fun _ _ _ _ _ _ => rfl
  simp only [e1]
  have hf1 := filter_upsertRS source set_number (_hash_params digest params) ts1s payload1
    db.results_store h
  have hle1 : ((upsertRS source set_number (_hash_params digest params) ts1s payload1
      db.results_store).filter
        (rsMatch source set_number (_hash_params digest params))).length ≤ 1 := by
    rw [hf1]
    simp
  refine ⟨filter_upsertRS _ _ _ _ _ _ hle1, ?_⟩
  apply length_upsertRS_of_mem
  have hmem : (⟨ts1s, source, set_number, _hash_params digest params, payload1⟩ : RSRow)
      ∈ (upsertRS source set_number (_hash_params digest params) ts1s payload1
          db.results_store).filter
            (rsMatch source set_number (_hash_params digest params)) := by
    rw [hf1]
    exact List.mem_singleton_self _
  exact ⟨_, (List.mem_filter.mp hmem).1, (List.mem_filter.mp hmem).2⟩

/-- C6 witness: against an empty database, two concrete upserts with the
same key leave exactly one record carrying the second timestamp and payload,
and the second call does not grow the store. -/
theorem result_store_upsert_in_place_witness :
    ((save_result (fun s => s)
        (save_result (fun s => s) ⟨[], []⟩ "BrickLink:price:SET:stock:N" "75192-1"
          (some [("k", .int 1)]) [("Score", .str "6.64")] false Option.none
          "2026-10-11T00:00:00+00:00" "2026-10-11T00:00:01+00:00")
        "BrickLink:price:SET:stock:N" "75192-1" (some [("k", .int 1)])
        [("Score", .str "6.70")] false Option.none
        "2026-10-12T00:00:00+00:00" "2026-10-12T00:00:01+00:00").results_store.filter
          (rsMatch "BrickLink:price:SET:stock:N" "75192-1"
            (_hash_params (fun s => s) (some [("k", .int 1)])))
      = [⟨"2026-10-12T00:00:00+00:00", "BrickLink:price:SET:stock:N", "75192-1",
          _hash_params (fun s => s) (some [("k", .int 1)]), [("Score", .str "6.70")]⟩]) ∧
    (save_result (fun s => s)
        (save_result (fun s => s) ⟨[], []⟩ "BrickLink:price:SET:stock:N" "75192-1"
          (some [("k", .int 1)]) [("Score", .str "6.64")] false Option.none
          "2026-10-11T00:00:00+00:00" "2026-10-11T00:00:01+00:00")
        "BrickLink:price:SET:stock:N" "75192-1" (some [("k", .int 1)])
        [("Score", .str "6.70")] false Option.none
        "2026-10-12T00:00:00+00:00" "2026-10-12T00:00:01+00:00").results_store.length
      = (save_result (fun s => s) ⟨[], []⟩ "BrickLink:price:SET:stock:N" "75192-1"
          (some [("k", .int 1)]) [("Score", .str "6.64")] false Option.none
          "2026-10-11T00:00:00+00:00" "2026-10-11T00:00:01+00:00").results_store.length :=
  result_store_upsert_in_place (fun s => s) ⟨[], []⟩ "BrickLink:price:SET:stock:N" "75192-1"
    (some [("k", .int 1)]) [("Score", .str "6.64")] [("Score", .str "6.70")] false false
    Option.none Option.none "2026-10-11T00:00:00+00:00" "2026-10-11T00:00:01+00:00"
    "2026-10-12T00:00:00+00:00" "2026-10-12T00:00:01+00:00" (by simp)

/-! ## Claims about the History Reader -/

/-- Filtering distributes over the per-row concatenation of a join. -/
theorem filter_concatMap (g : α → List β) (p : β → Bool) (l : List α) :
    (concatMap g l).filter p = concatMap (fun a => (g a).filter p) l := by
  induction l with
  | nil => rfl
  | cons a t ih => simp [concatMap, List.filter_append, ih]

/-- Membership in a per-row concatenation. -/
theorem mem_concatMap {g : α → List β} {b : β} :
    ∀ {l : List α}, b ∈ concatMap g l ↔ ∃ a ∈ l, b ∈ g a := by
  intro l
  induction l with
  | nil => simp [concatMap]
  | cons a t ih => simp [concatMap, List.mem_append, ih]

/-- A concatenation over elements none of which contributes is empty. -/
theorem concatMap_eq_nil (g : α → List β) (l : List α)
    (h : ∀ a ∈ l, g a = []) : concatMap g l = [] := by
  induction l with
  | nil => rfl
  | cons a t ih =>
      simp [concatMap, h a (by simp), ih (fun x hx => h x (by simp [hx]))]

/-- When exactly one element of the list satisfies the key predicate and the
others contribute nothing, the concatenation is that element's
contribution. -/
theorem concatMap_eq_of_filter_single (g : α → List β) (q : α → Bool) (R : α)
    (hg : ∀ a, q a = false → g a = []) :
    ∀ l : List α, l.filter q = [R] → concatMap g l = g R := by
  intro l
  induction l with
  | nil =>
      intro h
      exact absurd h (by simp)
  | cons a t ih =>
      intro h
      cases hq : q a with
      | true =>
          rw [List.filter_cons_of_pos hq] at h
          have h1 : a = R := by injection h
          have h2 : t.filter q = [] := by
            injection h with _ h2
          subst h1
          have ht : concatMap g t = [] := by
            apply concatMap_eq_nil
            intro x hx
            exact hg x (Bool.eq_false_iff.mpr (List.filter_eq_nil_iff.mp h2 x hx))
          simp [concatMap, ht]
      | false =>
          rw [List.filter_cons_of_neg (by simp [hq])] at h
          simp [concatMap, hg a hq, ih h]

/-- All History rows contributed by a key-matching stored row match the
key. -/
theorem filter_joinContrib_of_match (logs : List QLRow) (sourcePre start_iso : String)
    (source set_number params_hash : String) (r : RSRow)
    (hm : rsMatch source set_number params_hash r = true) :
    (joinContrib logs sourcePre start_iso r).filter
        (histMatch source set_number params_hash)
      = joinContrib logs sourcePre start_iso r := by
  obtain ⟨h1, h2, h3⟩ : r.source = source ∧ r.set_number = set_number ∧
      r.params_hash = params_hash := by
    simpa [rsMatch, beq_iff_eq, and_assoc] using hm
  rw [List.filter_eq_self]
  intro rec hrec
  unfold joinContrib at hrec
  split at hrec
  · obtain ⟨q, _, rfl⟩ := List.mem_map.mp hrec
    simp [histMatch, h1, h2, h3]
  · simp at hrec

/-- A stored row that does not match the key contributes no History row
matching the key. -/
theorem filter_joinContrib_of_not_match (logs : List QLRow)
    (sourcePre start_iso : String) (source set_number params_hash : String) (r : RSRow)
    (hm : rsMatch source set_number params_hash r = false) :
    (joinContrib logs sourcePre start_iso r).filter
        (histMatch source set_number params_hash) = [] := by
  rw [List.filter_eq_nil_iff]
  intro rec hrec
  unfold joinContrib at hrec
  split at hrec
  · obtain ⟨q, _, rfl⟩ := List.mem_map.mp hrec
    intro hc
    have hc' : rsMatch source set_number params_hash r = true := hc
    rw [hm] at hc'
    exact Bool.noConfusion hc'
  · simp at hrec

/-- C5: the History window query.  Its output is ordered newest-first by the
log timestamp.  For a natural key holding exactly one stored result whose
source matches the requested prefix, the window returns exactly one row per
key-matching log entry inside the window `q.ts_utc >= start_iso`, and every
returned row for that key carries the stored (latest) payload.  A stored
result whose key has no Query Log entry at all appears in no window. -/
theorem history_window_join (db : DB) (sourcePre start_iso : String) :
    List.Sorted newestFirst (results_last_n_days db sourcePre start_iso) ∧
    (∀ source set_number params_hash ts0 payload,
      db.results_store.filter (rsMatch source set_number params_hash)
          = [⟨ts0, source, set_number, params_hash, payload⟩] →
      sourcePre.toList.isPrefixOf source.toList = true →
      ((results_last_n_days db sourcePre start_iso).filter
            (histMatch source set_number params_hash)).length
        = (db.query_log.filter (fun q => qlKeyMatch source set_number params_hash q
            && decide (start_iso.toList ≤ q.ts_utc.toList))).length ∧
      (∀ rec ∈ results_last_n_days db sourcePre start_iso,
        histMatch source set_number params_hash rec = true → rec.payload = payload)) ∧
    (∀ source set_number params_hash,
      db.query_log.filter (qlKeyMatch source set_number params_hash) = [] →
      (results_last_n_days db sourcePre start_iso).filter
          (histMatch source set_number params_hash) = []) := by
  have hperm : (results_last_n_days db sourcePre start_iso).Perm
      (concatMap (joinContrib db.query_log sourcePre start_iso) db.results_store) :=
    List.perm_insertionSort newestFirst _
  refine ⟨List.sorted_insertionSort newestFirst _, ?_, ?_⟩
  · intro source set_number params_hash ts0 payload hone hpre
    have hRmatch : rsMatch source set_number params_hash
        ⟨ts0, source, set_number, params_hash, payload⟩ = true := by
      simp [rsMatch]
    have hfilters : (concatMap (joinContrib db.query_log sourcePre start_iso)
          db.results_store).filter (histMatch source set_number params_hash)
        = joinContrib db.query_log sourcePre start_iso
            ⟨ts0, source, set_number, params_hash, payload⟩ := by
      rw [filter_concatMap]
      rw [concatMap_eq_of_filter_single _ (rsMatch source set_number params_hash) _
        (fun a ha => filter_joinContrib_of_not_match _ _ _ _ _ _ _ ha)
        db.results_store hone]
      exact filter_joinContrib_of_match _ _ _ _ _ _ _ hRmatch
    constructor
    · rw [(hperm.filter _).length_eq, hfilters]
      unfold joinContrib
      rw [if_pos hpre, List.length_map]
      rfl
    · intro rec hrec hmatch
      have hrecraw : rec ∈ concatMap (joinContrib db.query_log sourcePre start_iso)
          db.results_store := hperm.mem_iff.mp hrec
      obtain ⟨r, hrl, hrec2⟩ := mem_concatMap.mp hrecraw
      unfold joinContrib at hrec2
      split at hrec2
      · obtain ⟨q, _, rfl⟩ := List.mem_map.mp hrec2
        have hrm : rsMatch source set_number params_hash r = true := hmatch
        have hrmem : r ∈ db.results_store.filter
            (rsMatch source set_number params_hash) := List.mem_filter.mpr ⟨hrl, hrm⟩
        rw [hone] at hrmem
        have hrR : r = ⟨ts0, source, set_number, params_hash, payload⟩ := by
          simpa using hrmem
        simp [hrR]
      · simp at hrec2
  · intro source set_number params_hash hnolog
    have hlogs : ∀ q ∈ db.query_log,
        qlKeyMatch source set_number params_hash q = false := fun q hq =>
      Bool.eq_false_iff.mpr (List.filter_eq_nil_iff.mp hnolog q hq)
    have hraw0 : (concatMap (joinContrib db.query_log sourcePre start_iso)
        db.results_store).filter (histMatch source set_number params_hash) = [] := by
      rw [filter_concatMap]
      apply concatMap_eq_nil
      intro r _
      cases hm : rsMatch source set_number params_hash r with
      | false => exact filter_joinContrib_of_not_match _ _ _ _ _ _ _ hm
      | true =>
          obtain ⟨h1, h2, h3⟩ : r.source = source ∧ r.set_number = set_number ∧
              r.params_hash = params_hash := by
            simpa [rsMatch, beq_iff_eq, and_assoc] using hm
          have hjc : joinContrib db.query_log sourcePre start_iso r = [] := by
            unfold joinContrib
            split
            · rw [List.filter_eq_nil_iff.mpr ?_, List.map_nil]
              intro q hq
              simp [qlMatchInWindow, qlKeyMatch, h1, h2, h3]
              intro hs hn hp
              have := hlogs q hq
              simp [qlKeyMatch, h1, h2, h3, hs, hn, hp] at this
            · rfl
          rw [hjc, List.filter_nil]
    have hp2 := hperm.filter (histMatch source set_number params_hash)
    rw [hraw0] at hp2
    exact hp2.eq_nil

/-- C5 witness: on the concrete database `dbW` — one stored result with
three log entries for its key (two of them inside the window) and one orphan
stored result with no log entry — the window returns exactly as many rows
for the first key as there are in-window log entries, and none for the
orphan key. -/
theorem history_window_join_witness :
    ((results_last_n_days dbW "BL" "2026-10-06T00:00:00+00:00").filter
        (histMatch "BL:p" "42-1" "h1")).length
      = (dbW.query_log.filter (fun q => qlKeyMatch "BL:p" "42-1" "h1" q
          && decide ("2026-10-06T00:00:00+00:00".toList ≤ q.ts_utc.toList))).length ∧
    (results_last_n_days dbW "BL" "2026-10-06T00:00:00+00:00").filter
        (histMatch "BL:p" "43-1" "h2") = [] :=
  ⟨((history_window_join dbW "BL" "2026-10-06T00:00:00+00:00").2.1 "BL:p" "42-1" "h1"
      "2026-10-12T10:30:00+00:00" [("v", JVal.int 7)] (by decide) (by decide)).1,
   (history_window_join dbW "BL" "2026-10-06T00:00:00+00:00").2.2 "BL:p" "43-1" "h2"
     (by decide)⟩

/-! ## Claim about clearing today's history -/

/-- C9 (code bug): `clear_history_today` derives "today" from
`date.today()` — the PROCESS-LOCAL calendar date — although the function's
own docstring says "(UTC date)" and every stored timestamp is produced with
`timezone.utc`.  On a host west of UTC shortly after midnight UTC the local
date is still 2026-10-11 while the current UTC day is 2026-10-12: the
operation then deletes nothing from `dbC9`, even though every record of
`dbC9` carries a timestamp on the current UTC calendar day and the claim
demands exactly those records be deleted. -/
theorem clear_history_today_local_date_bug :
    clear_history_today dbC9 "2026-10-11" = dbC9 ∧
    dbC9.query_log.filter (fun q => q.ts_utc.take 10 == "2026-10-12") ≠ [] ∧
    dbC9.results_store.filter (fun r => r.ts_utc.take 10 == "2026-10-12") ≠ [] := by
  decide

/-! ## Claims about the TTL cache -/

/-- Looking up the key just stored yields the stored entry. -/
theorem lookupCache_storeCache_self (k : StKey) (e : CacheEntry) (c : Cache) :
    lookupCache k (storeCache k e c) = some e := by
  simp [storeCache, lookupCache]

/-- A fresh entry (younger than the TTL) is served from the cache without a
live request and without touching the state. -/
theorem cached_get_json_hit (digest : String → String) (env : OAuthCreds)
    (cache : Cache) (now : ℕ) (url : String) (params : Option JObj)
    (oauth : OAuthCreds) (cache_group : String) (cache_key_extra : Option String)
    (fetch_result : JObj) (e : CacheEntry)
    (hl : lookupCache ⟨url, params, "oauth1", cache_group, cache_key_extra⟩ cache = some e)
    (hfresh : now - e.ts < TTL) :
    _cached_get_json digest env cache now url params oauth cache_group cache_key_extra
        fetch_result = (e.value, false, cache) := by
  simp only [_cached_get_json]
  rw [hl]
  simp [hfresh]

/-- With no entry under the key, the live request is issued and its result
stored under the key with the current timestamp. -/
theorem cached_get_json_miss_none (digest : String → String) (env : OAuthCreds)
    (cache : Cache) (now : ℕ) (url : String) (params : Option JObj)
    (oauth : OAuthCreds) (cache_group : String) (cache_key_extra : Option String)
    (fetch_result : JObj)
    (hl : lookupCache ⟨url, params, "oauth1", cache_group, cache_key_extra⟩ cache
      = Option.none) :
    _cached_get_json digest env cache now url params oauth cache_group cache_key_extra
        fetch_result
      = (fetch_result, true,
          storeCache ⟨url, params, "oauth1", cache_group, cache_key_extra⟩
            ⟨fetch_result, now⟩ cache) := by
  simp only [_cached_get_json]
  rw [hl]

/-- With an entry at or beyond the TTL, the live request is issued again and
the stored entry overwritten. -/
theorem cached_get_json_miss_stale (digest : String → String) (env : OAuthCreds)
    (cache : Cache) (now : ℕ) (url : String) (params : Option JObj)
    (oauth : OAuthCreds) (cache_group : String) (cache_key_extra : Option String)
    (fetch_result : JObj) (e : CacheEntry)
    (hl : lookupCache ⟨url, params, "oauth1", cache_group, cache_key_extra⟩ cache = some e)
    (hstale : ¬ now - e.ts < TTL) :
    _cached_get_json digest env cache now url params oauth cache_group cache_key_extra
        fetch_result
      = (fetch_result, true,
          storeCache ⟨url, params, "oauth1", cache_group, cache_key_extra⟩
            ⟨fetch_result, now⟩ cache) := by
  simp only [_cached_get_json]
  rw [hl]
  simp [hstale]

/-- C8: the 24h TTL is respected.  Two fetches of the same key within the
TTL window issue at most one live request between them, and whenever the
second call is served from the cache it returns exactly what the first call
returned; a fetch finding its stored entry expired (age at least `TTL`)
issues the request again and overwrites the stored entry with the fresh
value and timestamp. -/
theorem cache_ttl_respected (digest : String → String) (env : OAuthCreds)
    (cache : Cache) (now1 now2 : ℕ) (url : String) (params : Option JObj)
    (oauth : OAuthCreds) (cache_group : String) (cache_key_extra : Option String)
    (f1 f2 : JObj) (hle : now1 ≤ now2) (hwin : now2 - now1 < TTL) :
    ((_cached_get_json digest env cache now1 url params oauth cache_group cache_key_extra
        f1).2.1 &&
      (_cached_get_json digest env
        (_cached_get_json digest env cache now1 url params oauth cache_group cache_key_extra
          f1).2.2 now2 url params oauth cache_group cache_key_extra f2).2.1) = false ∧
    ((_cached_get_json digest env
        (_cached_get_json digest env cache now1 url params oauth cache_group cache_key_extra
          f1).2.2 now2 url params oauth cache_group cache_key_extra f2).2.1 = false →
      (_cached_get_json digest env
        (_cached_get_json digest env cache now1 url params oauth cache_group cache_key_extra
          f1).2.2 now2 url params oauth cache_group cache_key_extra f2).1
        = (_cached_get_json digest env cache now1 url params oauth cache_group
            cache_key_extra f1).1) ∧
    (∀ e, lookupCache ⟨url, params, "oauth1", cache_group, cache_key_extra⟩ cache = some e →
      TTL ≤ now2 - e.ts →
      _cached_get_json digest env cache now2 url params oauth cache_group cache_key_extra f2
        = (f2, true,
            storeCache ⟨url, params, "oauth1", cache_group, cache_key_extra⟩
              ⟨f2, now2⟩ cache)) := by
  have hexp : ∀ e, lookupCache ⟨url, params, "oauth1", cache_group, cache_key_extra⟩ cache
      = some e → TTL ≤ now2 - e.ts →
      _cached_get_json digest env cache now2 url params oauth cache_group cache_key_extra f2
        = (f2, true,
            storeCache ⟨url, params, "oauth1", cache_group, cache_key_extra⟩
              ⟨f2, now2⟩ cache) := fun e hl hstale =>
    cached_get_json_miss_stale digest env cache now2 url params oauth cache_group
      cache_key_extra f2 e hl (by omega)
  refine ⟨?_, ?_, hexp⟩ <;>
  · cases hl : lookupCache ⟨url, params, "oauth1", cache_group, cache_key_extra⟩ cache with
    | some e =>
        by_cases hfresh : now1 - e.ts < TTL
        · rw [cached_get_json_hit digest env cache now1 url params oauth cache_group
            cache_key_extra f1 e hl hfresh]
          by_cases hfresh2 : now2 - e.ts < TTL
          · rw [cached_get_json_hit digest env cache now2 url params oauth cache_group
              cache_key_extra f2 e hl hfresh2]
            simp
          · rw [cached_get_json_miss_stale digest env cache now2 url params oauth cache_group
              cache_key_extra f2 e hl hfresh2]
            simp
        · rw [cached_get_json_miss_stale digest env cache now1 url params oauth cache_group
            cache_key_extra f1 e hl hfresh]
          rw [cached_get_json_hit digest env _ now2 url params oauth cache_group
            cache_key_extra f2 ⟨f1, now1⟩ (lookupCache_storeCache_self _ _ _) (by simpa using hwin)]
          simp
    | none =>
        rw [cached_get_json_miss_none digest env cache now1 url params oauth cache_group
          cache_key_extra f1 hl]
        rw [cached_get_json_hit digest env _ now2 url params oauth cache_group
          cache_key_extra f2 ⟨f1, now1⟩ (lookupCache_storeCache_self _ _ _) (by simpa using hwin)]
        simp

/-- C8 witness: a miss at time 0 followed by a re-fetch at time 100 issues
no second request and returns the first value; a one-entry cache whose entry
is exactly 86400 s old re-fetches and overwrites. -/
theorem cache_ttl_respected_witness :
    ((_cached_get_json (fun s => s) credsA [] 0 "u" Option.none credsA "bl" Option.none
        [("v", .int 1)]).2.1 &&
      (_cached_get_json (fun s => s) credsA
        (_cached_get_json (fun s => s) credsA [] 0 "u" Option.none credsA "bl" Option.none
          [("v", .int 1)]).2.2 100 "u" Option.none credsA "bl" Option.none
        [("v", .int 2)]).2.1) = false ∧
    _cached_get_json (fun s => s) credsA
        [(⟨"u", Option.none, "oauth1", "bl", Option.none⟩, ⟨[("v", .int 1)], 0⟩)] 86400 "u"
        Option.none credsA "bl" Option.none [("v", .int 2)]
      = ([("v", .int 2)], true,
          storeCache ⟨"u", Option.none, "oauth1", "bl", Option.none⟩ ⟨[("v", .int 2)], 86400⟩
            [(⟨"u", Option.none, "oauth1", "bl", Option.none⟩, ⟨[("v", .int 1)], 0⟩)]) :=
  ⟨(cache_ttl_respected (fun s => s) credsA [] 0 100 "u" Option.none credsA "bl" Option.none
      [("v", .int 1)] [("v", .int 2)] (by decide) (by decide)).1,
   (cache_ttl_respected (fun s => s) credsA
      [(⟨"u", Option.none, "oauth1", "bl", Option.none⟩, ⟨[("v", .int 1)], 0⟩)]
      86000 86400 "u" Option.none credsA "bl" Option.none
      [("v", .int 1)] [("v", .int 2)] (by decide) (by decide)).2.2
      ⟨[("v", .int 1)], 0⟩ (by decide) (by decide)⟩

/-- C7 (code bug): credential material never reaches the memoisation key —
the `OAuth1` argument is hashed to the constant `"oauth1"` by `hash_funcs`,
and the ambient `BL_*` credentials only enter the `cache_key` local that is
computed and discarded (`_ = cache_key`; a local assignment cannot influence
`st.cache_data`'s argument-derived key).  Concretely: a fetch performed with
credential set A, re-issued 10 seconds later with the entirely different
credential set B and identical explicit parameters, is served A's cached
value with no live request — the two fetches share one cache entry instead
of producing independent ones. -/
theorem cache_shares_entry_across_credentials :
    (_cached_get_json (fun s => s) credsB
        (_cached_get_json (fun s => s) credsA [] 0 "https://api.example/items" (some [])
          credsA "bl" Option.none [("v", .int 1)]).2.2
        10 "https://api.example/items" (some []) credsB "bl" Option.none
        [("v", .int 2)]).1 = [("v", .int 1)] ∧
    (_cached_get_json (fun s => s) credsB
        (_cached_get_json (fun s => s) credsA [] 0 "https://api.example/items" (some [])
          credsA "bl" Option.none [("v", .int 1)]).2.2
        10 "https://api.example/items" (some []) credsB "bl" Option.none
        [("v", .int 2)]).2.1 = false ∧
    credsA ≠ credsB := by
  decide

end PurchasingDashboard
